import Mathlib

/-!
Verification development for the leadwell backend.

The definitions below are shallow embeddings of the JavaScript source:
  * the Google Calendar service (checkAvailability, createMeeting,
    suggestTimeSlots) from the calendar service module,
  * the OpenAI service (generateConversation context assembly),
  * the conversation service (processIncomingMessage and the
    qualification extraction routine),
  * the lead model (addLeadQualificationData),
  * the scheduling route (POST /api/scheduling/meetings).

Times are modelled as natural numbers of minutes; calendar days are
indexed by naturals with day 0 being a Monday, so absolute minute
`d * 1440 + m` is minute `m` of day `d`.  External collaborators
(Supabase, Google, OpenAI, Twilio) are modelled by passing their
reported results as explicit parameters.
-/

namespace Leadwell

/-! ## Calendar service: suggestTimeSlots and checkAvailability -/

/-- A business-hours entry as passed from the scheduling route:
`day` is a lowercase weekday name, `start` and `stop` are the window
open and close times in minutes from midnight (the source carries them
as HH:MM strings that get combined with the current date). -/
structure HoursEntry where
  day : String
  start : Nat
  stop : Nat
deriving DecidableEq

/-- A busy interval reported by the calendar freebusy query, in absolute
minutes. -/
structure Busy where
  start : Nat
  stop : Nat
deriving DecidableEq

/-- A candidate slot produced by suggestTimeSlots, in absolute minutes. -/
structure Slot where
  start : Nat
  stop : Nat
deriving DecidableEq

/-- The conflict test inside suggestTimeSlots, for one busy interval:
slot start inside the busy interval, or slot end inside it, or the slot
containing it.  Direct transcription of the three disjuncts of the
`busySlots.some` callback. -/
def overlapsBusy (slot : Slot) (busy : Busy) : Bool :=
  (busy.start ≤ slot.start && slot.start < busy.stop) ||
  (busy.start < slot.stop && slot.stop ≤ busy.stop) ||
  (slot.start ≤ busy.start && busy.stop ≤ slot.stop)

/-- Availability of a candidate slot: no busy interval conflicts
(`!busySlots.some (…)` in the source). -/
def isAvailable (slot : Slot) (busySlots : List Busy) : Bool :=
  !(busySlots.any (overlapsBusy slot))

/-- The inner while loop of suggestTimeSlots.  The source mutates
`slotStart` inside the loop condition
(`while (slotStart.add(durationMinutes).isSameOrBefore(dayEnd))`), so one
iteration from cursor `s` first advances the cursor to `s + dur`, tests it
against `dayEnd`, and then emits the candidate
`(s + dur, s + dur + dur)` when it is available.  The source loops
forever when `durationMinutes = 0`; the model returns `[]` in that
(never exercised) case. -/
def genSlots (dur dayEnd : Nat) (busySlots : List Busy) (s : Nat) : List Slot :=
  if _h : 0 < dur ∧ s + dur ≤ dayEnd then
    let cand : Slot := ⟨s + dur, s + dur + dur⟩
    let rest := genSlots dur dayEnd busySlots (s + dur)
    if isAvailable cand busySlots then cand :: rest else rest
  else []
termination_by dayEnd - s
decreasing_by omega

/-- Weekday name of a day index (the source formats the current day as a
lowercase full weekday name); day 0 is a Monday. -/
def weekdayName (d : Nat) : String :=
  match d % 7 with
  | 0 => "monday"
  | 1 => "tuesday"
  | 2 => "wednesday"
  | 3 => "thursday"
  | 4 => "friday"
  | 5 => "saturday"
  | _ => "sunday"

/-- The suggestTimeSlots calendar service: iterate each calendar day of
the inclusive range, look up the first business-hours entry for that
weekday, and run the slot loop over that window.  The busy intervals the
source fetches from the freebusy query are passed in as `busySlots`. -/
def suggestTimeSlots (startDay endDay durationMinutes : Nat)
    (businessHours : List HoursEntry) (busySlots : List Busy) : List Slot :=
  ((List.range (endDay + 1 - startDay)).map (fun i => startDay + i)).flatMap
    (fun d =>
      match businessHours.find? (fun h => h.day == weekdayName d) with
      | some dayHours =>
          genSlots durationMinutes (d * 1440 + dayHours.stop) busySlots
            (d * 1440 + dayHours.start)
      | none => [])

/-- The checkAvailability calendar service: true when the freebusy query
for the requested window reports no busy interval
(`busySlots.length === 0`). -/
def checkAvailability (busySlots : List Busy) : Bool :=
  busySlots.length == 0

/-! ## JavaScript values and message rows -/

/-- The JavaScript values that appear on a stored message row, plus the
result of reading an absent property. -/
inductive MVal where
  | undefinedV
  | boolV (b : Bool)
  | strV (s : String)
deriving DecidableEq

/-- A JavaScript object, as a list of property name and value pairs. -/
abbrev MsgObj := List (String × MVal)

/-- Property read on a JavaScript object: the value of the first matching
property, and the undefined value when the property is absent. -/
def getProp (o : MsgObj) (k : String) : MVal :=
  match o.find? (fun p => p.1 == k) with
  | some p => p.2
  | none => MVal.undefinedV

/-- JavaScript truthiness of the values that occur here: the undefined
value is falsy, a boolean is itself, a string is truthy when nonempty. -/
def truthy : MVal → Bool
  | MVal.undefinedV => false
  | MVal.boolV b => b
  | MVal.strV s => !(s == "")

/-- String content of a value; the verified code only reads it where the
value is a string. -/
def strOf : MVal → String
  | MVal.strV s => s
  | _ => ""

/-- The message row inserted by addMessage in the conversation model.
Only the columns the verified functions read are carried: `content` and
the snake case column `is_from_lead`; the remaining columns (id,
conversation id, metadata, created timestamp) are opaque and never read
by the functions under verification. -/
def mkMessage (content : String) (isFromLead : Bool) : MsgObj :=
  [("content", MVal.strV content), ("is_from_lead", MVal.boolV isFromLead)]

/-! ## Character-level helpers for the JavaScript string operations -/

/-- Whitespace test used for trim and for the whitespace class of the
budget pattern (the common ASCII whitespace characters). -/
def isWSChar (c : Char) : Bool :=
  c == ' ' || c == '\t' || c == '\n' || c == '\r'

/-- ASCII digit test, the digit class of the budget pattern. -/
def isDigitChar (c : Char) : Bool :=
  '0' ≤ c && c ≤ '9'

/-- ASCII lowercasing of one character (toLowerCase on the inputs that
occur here). -/
def toLowerChar (c : Char) : Char :=
  if 'A' ≤ c && c ≤ 'Z' then Char.ofNat (c.toNat + 32) else c

/-- Lowercasing of a character list. -/
def toLowerList (cs : List Char) : List Char :=
  cs.map toLowerChar

/-- Trim of a character list: drop leading and trailing whitespace. -/
def trimList (cs : List Char) : List Char :=
  ((cs.dropWhile isWSChar).reverse.dropWhile isWSChar).reverse

/-- Split of a character list at commas (split with a comma separator;
an empty input yields one empty group). -/
def splitComma : List Char → List (List Char)
  | [] => [[]]
  | c :: rest =>
    if c == ',' then [] :: splitComma rest
    else
      match splitComma rest with
      | [] => [[c]]
      | g :: gs => (c :: g) :: gs

/-- Test whether `needle` is an initial segment of `hay`. -/
def startsWithL : List Char → List Char → Bool
  | [], _ => true
  | _ :: _, [] => false
  | a :: as, b :: bs => a == b && startsWithL as bs

/-- Substring containment (the includes method): `needle` occurs as an
initial segment of some suffix of `hay`. -/
def containsSub : List Char → List Char → Bool
  | [], needle => needle.isEmpty
  | c :: rest, needle => startsWithL needle (c :: rest) || containsSub rest needle

/-! ## Lead model: qualification data merge -/

/-- A qualification map: a JavaScript object of field name and extracted
string value pairs, keys in insertion order. -/
abbrev QualMap := List (String × String)

/-- Property lookup on an object represented as a key and value list. -/
def lookupQ {α : Type} (o : List (String × α)) (k : String) : Option α :=
  (o.find? (fun p => p.1 == k)).map (fun p => p.2)

/-- JavaScript property assignment on an object: overwrite the value in
place when the key is present, append the new key otherwise. -/
def setProp (o : QualMap) (k v : String) : QualMap :=
  if o.any (fun p => p.1 == k) then
    o.map (fun p => if p.1 == k then (k, v) else p)
  else o ++ [(k, v)]

/-- JavaScript object spread of `b` over `a`: the keys of `a` in order
with values overridden by `b` where present, then the keys of `b` that
are new, in order. -/
def spreadObj {α : Type} (a b : List (String × α)) : List (String × α) :=
  a.map (fun p =>
    match b.find? (fun q => q.1 == p.1) with
    | some q => (p.1, q.2)
    | none => p)
  ++ b.filter (fun q => !(a.any (fun p => p.1 == q.1)))

/-- The values stored inside the additional info object of a lead: the
qualification data sub-object, or some other JSON value (opaque here). -/
inductive JVal where
  | prim (s : String)
  | obj (m : QualMap)
deriving DecidableEq

/-- The additional info object of a lead. -/
abbrev InfoObj := List (String × JVal)

/-- Reading the stored qualification data out of the additional info
object (the source falls back to the empty object when the additional
info object or its qualification data key is missing). -/
def getQualificationData (info : InfoObj) : QualMap :=
  match lookupQ info ("qualification_data") with
  | some (JVal.obj m) => m
  | _ => []

/-- A lead row, with the columns the verified functions read or write. -/
structure Lead where
  phone : Option String
  email : Option String
  name : Option String
  status : String
  contact_channel : String
  business_id : String
  additional_info : InfoObj
  updated_at : Nat
deriving DecidableEq

/-- The addLeadQualificationData lead model function: spread the new
qualification data over the stored one, write the result back under the
qualification data key of the additional info object (spreading over the
old additional info object, so every other key is copied), and stamp the
update time.  No other column is touched by the update. -/
def addLeadQualificationData (lead : Lead) (qualificationData : QualMap)
    (now : Nat) : Lead :=
  let updatedInfo : InfoObj :=
    spreadObj lead.additional_info
      [("qualification_data",
        JVal.obj (spreadObj (getQualificationData lead.additional_info)
                            qualificationData))]
  { lead with additional_info := updatedInfo, updated_at := now }

/-- The qualification map stored on a lead. -/
def storedQualification (lead : Lead) : QualMap :=
  getQualificationData lead.additional_info

/-! ## Conversation service: qualification extraction -/

/-- Drop the whitespace class of the budget pattern. -/
def dropWS (cs : List Char) : List Char :=
  cs.dropWhile isWSChar

/-- Consume the optional keyword group of the budget pattern. -/
def dropKw (cs : List Char) : List Char :=
  if startsWithL ("is").data cs then cs.drop 2
  else if startsWithL ("of").data cs then cs.drop 2
  else if startsWithL (":").data cs then cs.drop 1
  else cs

/-- Consume the optional currency symbol of the budget pattern. -/
def dropCurrency (cs : List Char) : List Char :=
  match cs with
  | c :: rest => if c == '$' || c == '£' || c == '€' then rest else cs
  | [] => []

/-- The numeric capture group of the budget pattern: one digit followed
by the maximal run of digits and commas. -/
def takeNumTail (cs : List Char) : Option (List Char) :=
  match cs with
  | c :: _ =>
      if isDigitChar c then
        some (cs.takeWhile (fun d => isDigitChar d || d == ','))
      else none
  | [] => none

/-- Match the tail of the budget pattern right after the budget literal:
whitespace, an optional keyword, whitespace, an optional currency symbol,
whitespace, then the numeric capture.  The character classes of adjacent
components are disjoint, so this greedy scan matches the backtracking
regex engine on the pattern. -/
def budgetTail (cs : List Char) : Option (List Char) :=
  takeNumTail (dropWS (dropCurrency (dropWS (dropKw (dropWS cs)))))

/-- The budget regex match over lowercased content: at each position in
reading order, try the budget literal followed by the pattern tail, and
return the first numeric capture. -/
def budgetMatch : List Char → Option (List Char)
  | [] => none
  | c :: rest =>
    if startsWithL ("budget").data (c :: rest) then
      match budgetTail ((c :: rest).drop 6) with
      | some n => some n
      | none => budgetMatch rest
    else budgetMatch rest

/-- One step of the extraction scan, for one required field and one
message: skip messages not from the lead, lowercase the content, then
apply the budget rule (substring guard, regex capture, comma stripping)
and the timeline rule (substring guard, coarse classification). -/
def msgStep (field : List Char) (qd : QualMap) (message : MsgObj) : QualMap :=
  if !(truthy (getProp message ("is_from_lead"))) then qd
  else
    let content := toLowerList (strOf (getProp message ("content"))).data
    let qd1 :=
      if field == ("budget").data && containsSub content ("budget").data then
        match budgetMatch content with
        | some digits =>
            setProp qd ("budget") (String.mk (digits.filter (fun c => !(c == ','))))
        | none => qd
      else qd
    if field == ("timeline").data &&
       (containsSub content ("timeline").data ||
        containsSub content ("time frame").data) then
      if containsSub content ("month").data then setProp qd1 ("timeline") ("months")
      else if containsSub content ("week").data then setProp qd1 ("timeline") ("weeks")
      else if containsSub content ("day").data then setProp qd1 ("timeline") ("days")
      else qd1
    else qd1

/-- The extraction scan of extractQualificationData: split the required
info at commas, trim and lowercase each field name, then for each field
in order scan every message in order, accumulating the qualification
object. -/
def extractFromMessages (requiredInfo : String) (messages : List MsgObj) :
    QualMap :=
  let requiredFields := (splitComma requiredInfo.data).map
    (fun f => toLowerList (trimList f))
  requiredFields.foldl (fun qd field => messages.foldl (msgStep field) qd) []

/-- The getMessagesByConversationId conversation model query: the page of
`limit` messages starting at `offset`, in chronological order (the
source defaults are limit 100 and offset 0). -/
def getMessagesByConversationId (messages : List MsgObj) (limit offset : Nat) :
    List MsgObj :=
  (messages.drop offset).take limit

/-- The getRecentMessages conversation model query: the last `limit`
messages, returned in chronological order. -/
def getRecentMessages (messages : List MsgObj) (limit : Nat) : List MsgObj :=
  (messages.reverse.take limit).reverse

/-- The pure content of the extractQualificationData service step: fetch
the conversation messages with the default page (limit 100, offset 0)
and run the extraction scan over them. -/
def extractQualificationData (requiredInfo : String)
    (conversationMessages : List MsgObj) : QualMap :=
  extractFromMessages requiredInfo
    (getMessagesByConversationId conversationMessages 100 0)

/-! ## OpenAI service: context assembly of generateConversation -/

/-- One instruction of the chat completion request. -/
structure ChatMessage where
  role : String
  content : String
deriving DecidableEq

/-- The system prompt template of generateConversation, interpolated
from the business profile and the assistant configuration. -/
def systemPrompt (businessName industry services tone role requiredInfo :
    String) : String :=
  "You are a helpful " ++ role ++ " for " ++ businessName ++
  ", a company in the " ++ industry ++ " industry that offers " ++
  services ++ ". \n    Your tone should be " ++ tone ++
  ". Your goal is to qualify leads by collecting the following information: " ++
  requiredInfo ++
  ".\n    If appropriate in the conversation, suggest booking a meeting. Be natural, friendly and conversational."

/-- The history formatting of generateConversation.  The source reads
the camel case property isFromLead off each history message; the rows
produced by addMessage carry the snake case column is_from_lead, so on
every stored row the read yields the undefined value, which is falsy. -/
def formattedHistory (conversationHistory : List MsgObj) : List ChatMessage :=
  conversationHistory.map (fun msg =>
    { role := if truthy (getProp msg ("isFromLead")) then ("user") else ("assistant")
      content := strOf (getProp msg ("content")) })

/-- The instruction sequence generateConversation sends to the chat
completion call: the system prompt, the formatted history, then the
latest inbound text as a final user instruction. -/
def generateConversationMessages (businessName industry services tone role
    requiredInfo : String) (conversationHistory : List MsgObj)
    (userMessage : String) : List ChatMessage :=
  { role := "system",
    content := systemPrompt businessName industry services tone role requiredInfo }
  :: formattedHistory conversationHistory
  ++ [{ role := "user", content := userMessage }]

/-! ## Scheduling route: POST /api/scheduling/meetings -/

/-- A meeting row as inserted by the scheduling model (the outlook event
column and the extra info object, always absent on this route, are
omitted). -/
structure Meeting where
  lead_id : String
  business_id : String
  conversation_id : Option String
  title : String
  description : String
  start_time : Nat
  end_time : Nat
  timezone : String
  status : String
  location : Option String
  google_event_id : Option String
deriving DecidableEq

/-- The request body of the meeting creation route, after validation. -/
structure MeetingInput where
  leadId : String
  conversationId : Option String
  title : String
  description : String
  start_time : Nat
  end_time : Nat
  timezone : String
  location : Option String
deriving DecidableEq

/-- The local meeting record the route persists, with the scheduled
status default of the scheduling model and the google event id returned
by the remote creation (none when skipped). -/
def mkMeeting (businessId : String) (inp : MeetingInput)
    (googleEventId : Option String) : Meeting :=
  { lead_id := inp.leadId
    business_id := businessId
    conversation_id := inp.conversationId
    title := inp.title
    description := inp.description
    start_time := inp.start_time
    end_time := inp.end_time
    timezone := inp.timezone
    status := "scheduled"
    location := inp.location
    google_event_id := googleEventId }

/-- The observable outcome of the meeting creation route. -/
inductive BookResult where
  | created (m : Meeting)
  | slotConflict
  | calendarError
deriving DecidableEq

/-- The booking part of the meeting creation route, after the business
and lead lookups succeed.  External results are passed in: `busySlots`
is what the freebusy re-check reports for the requested window, and
`remoteEvent` is the outcome of the remote calendar event creation (its
returned event id, or a thrown error).  When credentials exist, the
availability re-check runs first (conflict means a 409 and no local
write), then the remote event creation (a throw aborts the route before
any local write), then the local meeting insert; when credentials are
absent the re-check and the remote creation are skipped and the meeting
is persisted with no google event id.  A successful booking advances a
lead in the new status to qualified. -/
def postMeeting (calendarCredentials : Option String) (busySlots : List Busy)
    (remoteEvent : Except Unit String) (businessId : String) (lead : Lead)
    (inp : MeetingInput) (store : List Meeting) :
    BookResult × List Meeting × Lead :=
  match calendarCredentials with
  | some _ =>
    if checkAvailability busySlots then
      match remoteEvent with
      | Except.ok eventId =>
        let m := mkMeeting businessId inp (some eventId)
        (BookResult.created m, store ++ [m],
          if lead.status == "new" then { lead with status := "qualified" } else lead)
      | Except.error _ => (BookResult.calendarError, store, lead)
    else (BookResult.slotConflict, store, lead)
  | none =>
    let m := mkMeeting businessId inp none
    (BookResult.created m, store ++ [m],
      if lead.status == "new" then { lead with status := "qualified" } else lead)

/-! ## Conversation service: processIncomingMessage pipeline -/

/-- The business profile columns read by the pipeline. -/
structure Business where
  name : String
  industry : String
  services : String
deriving DecidableEq

/-- The assistant configuration columns read by the pipeline. -/
structure AssistantConfig where
  tone : String
  role : String
  required_info : String
deriving DecidableEq

/-- The addMessage conversation model write: append the new row in
chronological order. -/
def addMessage (conv : List MsgObj) (content : String) (isFromLead : Bool) :
    List MsgObj :=
  conv ++ [mkMessage content isFromLead]

/-- The state the pipeline touches: the message list of the resolved
active conversation (empty for a freshly created one), the dispatches
already sent through the messaging gateway as destination, body and
channel triples, and the resolved lead row. -/
structure PipeState where
  conv : List MsgObj
  sent : List (String × String × String)
  lead : Lead
deriving DecidableEq

/-- The processIncomingMessage pipeline for a resolved lead and
conversation.  The inbound message is persisted first; then the business
and assistant configuration are loaded (a missing one throws, with the
inbound already stored); then the recent history is read and the
generation call runs, with `genResult` the outcome reported by the
provider: a throw propagates, leaving the state as it was after the
inbound write, while a reply is persisted as an outbound row, dispatched
through the gateway, and followed by the extraction step, whose result
is merged into the lead only when nonempty. -/
def processIncomingMessage (phone message channel : String)
    (business : Option Business) (assistantConfig : Option AssistantConfig)
    (genResult : Except Unit String) (now : Nat) (st : PipeState) :
    PipeState × Except Unit String :=
  let st1 : PipeState := { st with conv := addMessage st.conv message true }
  match business, assistantConfig with
  | some _, some cfg =>
    let _history := getRecentMessages st1.conv 20
    match genResult with
    | Except.error e => (st1, Except.error e)
    | Except.ok aiResponse =>
      let st2 : PipeState := { st1 with conv := addMessage st1.conv aiResponse false }
      let st3 : PipeState := { st2 with sent := st2.sent ++ [(phone, aiResponse, channel)] }
      let qd := extractQualificationData cfg.required_info st3.conv
      let st4 : PipeState :=
        if qd.isEmpty then st3
        else { st3 with lead := addLeadQualificationData st3.lead qd now }
      (st4, Except.ok aiResponse)
  | _, _ => (st1, Except.error ())

/-! ## Helper lemmas for the slot calculator -/

/-- Structural twin of the slot loop, indexed by fuel; with fuel at
least the remaining window length it agrees with genSlots, which lets
concrete runs be computed by reduction. -/
def genSlotsFuel : Nat → Nat → Nat → List Busy → Nat → List Slot
  | 0, _, _, _, _ => []
  | Nat.succ fuel, dur, dayEnd, busySlots, s =>
    if 0 < dur ∧ s + dur ≤ dayEnd then
      if isAvailable ⟨s + dur, s + dur + dur⟩ busySlots then
        Slot.mk (s + dur) (s + dur + dur) ::
          genSlotsFuel fuel dur dayEnd busySlots (s + dur)
      else genSlotsFuel fuel dur dayEnd busySlots (s + dur)
    else []

lemma genSlots_eq_fuel (dur dayEnd : Nat) (busySlots : List Busy) :
    ∀ (fuel s : Nat), dayEnd - s ≤ fuel →
      genSlots dur dayEnd busySlots s = genSlotsFuel fuel dur dayEnd busySlots s := by
  intro fuel
  induction fuel with
  | zero =>
    intro s hs
    rw [genSlots]
    rw [dif_neg (by omega)]
    rfl
  | succ fuel ih =>
    intro s hs
    rw [genSlots]
    by_cases hc : 0 < dur ∧ s + dur ≤ dayEnd
    · rw [dif_pos hc]
      simp only [genSlotsFuel, if_pos hc, ih (s + dur) (by omega)]
    · rw [dif_neg hc]
      simp only [genSlotsFuel, if_neg hc]

/-- Computable twin of suggestTimeSlots, through the fuel-indexed loop. -/
def suggestTimeSlotsC (startDay endDay durationMinutes : Nat)
    (businessHours : List HoursEntry) (busySlots : List Busy) : List Slot :=
  ((List.range (endDay + 1 - startDay)).map (fun i => startDay + i)).flatMap
    (fun d =>
      match businessHours.find? (fun h => h.day == weekdayName d) with
      | some dayHours =>
          genSlotsFuel (d * 1440 + dayHours.stop) durationMinutes
            (d * 1440 + dayHours.stop) busySlots (d * 1440 + dayHours.start)
      | none => [])

lemma suggestTimeSlots_eq_C (startDay endDay durationMinutes : Nat)
    (businessHours : List HoursEntry) (busySlots : List Busy) :
    suggestTimeSlots startDay endDay durationMinutes businessHours busySlots
      = suggestTimeSlotsC startDay endDay durationMinutes businessHours busySlots := by
  unfold suggestTimeSlots suggestTimeSlotsC
  congr 1
  funext d
  cases businessHours.find? (fun h => h.day == weekdayName d) with
  | none => rfl
  | some dayHours => exact genSlots_eq_fuel _ _ _ _ _ (Nat.sub_le _ _)

lemma mem_genSlotsFuel :
    ∀ (fuel dur dayEnd : Nat) (busySlots : List Busy) (s : Nat) (x : Slot),
      x ∈ genSlotsFuel fuel dur dayEnd busySlots s →
      x.stop = x.start + dur ∧ isAvailable x busySlots = true := by
  intro fuel
  induction fuel with
  | zero =>
    intro dur dayEnd busySlots s x hx
    simp [genSlotsFuel] at hx
  | succ fuel ih =>
    intro dur dayEnd busySlots s x hx
    rw [genSlotsFuel] at hx
    by_cases hc : 0 < dur ∧ s + dur ≤ dayEnd
    · rw [if_pos hc] at hx
      by_cases ha : isAvailable ⟨s + dur, s + dur + dur⟩ busySlots = true
      · rw [if_pos ha] at hx
        rcases List.mem_cons.1 hx with h | h
        · subst h; exact ⟨rfl, ha⟩
        · exact ih _ _ _ _ _ h
      · rw [if_neg ha] at hx
        exact ih _ _ _ _ _ hx
    · rw [if_neg hc] at hx
      simp at hx

lemma isAvailable_forall (x : Slot) (busySlots : List Busy)
    (h : isAvailable x busySlots = true) :
    ∀ b ∈ busySlots, overlapsBusy x b = false := by
  intro b hb
  simp only [isAvailable, Bool.not_eq_true'] at h
  have h2 := List.any_eq_false.mp h b hb
  simpa using h2

/-- Business hours with one entry: monday from 09:00 (minute 540) to
10:00 (minute 600). -/
def hoursMondayNine : List HoursEntry := [⟨"monday", 540, 600⟩]

/-- Run of suggestTimeSlots over the week of days 0 to 6 (day 0 is the
Monday), duration 30, one monday 09:00 to 10:00 window, no busy
interval: the loop advances the cursor inside its condition before the
first emission, so the returned slots are 09:30 to 10:00 and 10:00 to
10:30, the latter past the window close. -/
lemma suggest_eval_noBusy :
    suggestTimeSlots 0 6 30 hoursMondayNine [] = [⟨570, 600⟩, ⟨600, 630⟩] := by
  rw [suggestTimeSlots_eq_C]; rfl

/-- Same run with one busy interval 09:00 to 09:30: both generated
candidates clear the overlap test, so both are returned. -/
lemma suggest_eval_busyFirst :
    suggestTimeSlots 0 6 30 hoursMondayNine [⟨540, 570⟩] = [⟨570, 600⟩, ⟨600, 630⟩] := by
  rw [suggestTimeSlots_eq_C]; rfl

/-! ## Claim theorems -/

/-- C1: every slot returned by suggestTimeSlots has length exactly the
requested duration, and overlaps no supplied busy interval, where
overlap means the slot start inside a busy interval, the slot end inside
one, or the slot containing one. -/
theorem C1_slot_duration_and_no_overlap
    (startDay endDay durationMinutes : Nat) (businessHours : List HoursEntry)
    (busySlots : List Busy) (s : Slot)
    (hs : s ∈ suggestTimeSlots startDay endDay durationMinutes businessHours busySlots) :
    s.stop - s.start = durationMinutes ∧
      ∀ b ∈ busySlots, overlapsBusy s b = false := by
  rw [suggestTimeSlots_eq_C] at hs
  unfold suggestTimeSlotsC at hs
  rw [List.mem_flatMap] at hs
  obtain ⟨d, -, hd⟩ := hs
  revert hd
  cases businessHours.find? (fun h => h.day == weekdayName d) with
  | none => intro hd; simp at hd
  | some dayHours =>
    intro hd
    obtain ⟨h1, h2⟩ := mem_genSlotsFuel _ _ _ _ _ _ hd
    exact ⟨by omega, isAvailable_forall _ _ h2⟩

/-- C1 witness: the first slot of the monday run has length 30. -/
theorem C1_witness :
    (Slot.mk 570 600).stop - (Slot.mk 570 600).start = 30 :=
  (C1_slot_duration_and_no_overlap 0 6 30 hoursMondayNine [] ⟨570, 600⟩
    (by rw [suggestTimeSlots_eq_C]; decide)).1

/-- C2: for business hours monday 09:00 to 10:00, duration 30 and no
busy interval, the claim expects the slots 09:00 to 09:30 and 09:30 to
10:00; the code instead returns 09:30 to 10:00 and 10:00 to 10:30,
because the loop mutates the slot cursor inside its condition before the
first emission, skipping the opening slot and emitting one past the
close.  This theorem evaluates the code at that input. -/
theorem C2_code_returns_shifted_slots :
    suggestTimeSlots 0 6 30 hoursMondayNine [] = [⟨570, 600⟩, ⟨600, 630⟩] :=
  suggest_eval_noBusy

/-- C3: with the same configuration and the busy interval 09:00 to
09:30, the claim expects exactly the slot 09:30 to 10:00; the code
returns 09:30 to 10:00 and also 10:00 to 10:30.  This theorem evaluates
the code at that input. -/
theorem C3_code_returns_extra_slot :
    suggestTimeSlots 0 6 30 hoursMondayNine [⟨540, 570⟩] = [⟨570, 600⟩, ⟨600, 630⟩] :=
  suggest_eval_busyFirst

/-- C4: the context builder tags every stored history row as assistant,
whatever its is_from_lead column says, because it reads the absent camel
case property isFromLead; the claim expects rows with is_from_lead true
to be tagged user.  This theorem evaluates the code on a one-row history
whose row has is_from_lead true. -/
theorem C4_history_row_from_lead_tagged_assistant :
    generateConversationMessages ("Acme") ("retail") ("plumbing") ("friendly")
      ("sales assistant") ("budget, timeline") [mkMessage ("hello") true]
      ("latest text")
    = [⟨"system", systemPrompt ("Acme") ("retail") ("plumbing") ("friendly")
          ("sales assistant") ("budget, timeline")⟩,
       ⟨"assistant", "hello"⟩, ⟨"user", "latest text"⟩] := rfl

/-- C5: with calendar credentials present and the freebusy re-check
reporting at least one busy interval, the booking route answers with the
slot conflict outcome and writes no local meeting record: the store and
the lead are returned unchanged. -/
theorem C5_conflict_no_local_record (tok : String) (b0 : Busy)
    (busyRest : List Busy) (remoteEvent : Except Unit String)
    (businessId : String) (lead : Lead) (inp : MeetingInput)
    (store : List Meeting) :
    postMeeting (some tok) (b0 :: busyRest) remoteEvent businessId lead inp store
      = (BookResult.slotConflict, store, lead) := by
  simp [postMeeting, checkAvailability]

/-- C6: with credentials present and a clean re-check, a throw from the
remote calendar event creation aborts the route before the local insert,
leaving the store and the lead unchanged; with credentials absent, the
re-check and the remote creation are skipped whatever they would have
reported, and the meeting is persisted locally with no google event
id. -/
theorem C6_remote_before_local_and_degraded_mode (tok businessId : String)
    (lead : Lead) (inp : MeetingInput) (store : List Meeting)
    (busySlots : List Busy) (remoteEvent : Except Unit String) (e : Unit) :
    (postMeeting (some tok) [] (Except.error e) businessId lead inp store
      = (BookResult.calendarError, store, lead))
    ∧ (postMeeting none busySlots remoteEvent businessId lead inp store
      = (BookResult.created (mkMeeting businessId inp none),
         store ++ [mkMeeting businessId inp none],
         if lead.status == "new" then { lead with status := "qualified" } else lead))
    ∧ (mkMeeting businessId inp none).google_event_id = none := by
  refine ⟨?_, rfl, rfl⟩
  simp [postMeeting, checkAvailability]

/-- C7: when the generation provider throws inside the pipeline for a
resolved lead with business and assistant configuration present, the
inbound message has already been persisted with is_from_lead true, but
no outbound row is added, nothing is dispatched through the gateway, the
lead row (hence its qualification map) is untouched, and the error
propagates. -/
theorem C7_generation_failure_persists_only_inbound
    (phone message channel : String) (b : Business) (cfg : AssistantConfig)
    (e : Unit) (now : Nat) (st : PipeState) :
    processIncomingMessage phone message channel (some b) (some cfg)
        (Except.error e) now st
      = ({ st with conv := st.conv ++ [mkMessage message true] }, Except.error e) := by
  simp [processIncomingMessage, addMessage]

/-! ## Helper lemmas for the object spread -/

/-- Lookup past a head entry with a different key. -/
lemma lookupQ_cons_of_neg {α : Type} (p : String × α) (l : List (String × α))
    (k : String) (h : (p.1 == k) = false) :
    lookupQ (p :: l) k = lookupQ l k := by
  unfold lookupQ
  rw [@List.find?_cons_of_neg _ (fun r => r.1 == k) p l (by simp [h])]

/-- Lookup at a head entry carrying the key. -/
lemma lookupQ_cons_of_pos {α : Type} (p : String × α) (l : List (String × α))
    (k : String) (h : (p.1 == k) = true) :
    lookupQ (p :: l) k = some p.2 := by
  unfold lookupQ
  rw [@List.find?_cons_of_pos _ (fun r => r.1 == k) p l h]
  rfl

/-- Finding a key through a map by some key-preserving function: the
first entry with the key is found at the same place, transformed. -/
lemma find?_map_keyPreserving {α : Type} (g : String × α → String × α)
    (hg : ∀ p, (g p).1 = p.1) (k : String) :
    ∀ (a : List (String × α)),
      (a.map g).find? (fun p => p.1 == k)
        = Option.map g (a.find? (fun p => p.1 == k)) := by
  intro a
  induction a with
  | nil => rfl
  | cons p a ih =>
    cases hk : (p.1 == k) with
    | true =>
      rw [List.map_cons,
          @List.find?_cons_of_pos _ (fun r => r.1 == k) (g p) (a.map g)
            (by simp [hg, hk]),
          @List.find?_cons_of_pos _ (fun r => r.1 == k) p a hk]
      rfl
    | false =>
      rw [List.map_cons,
          @List.find?_cons_of_neg _ (fun r => r.1 == k) (g p) (a.map g)
            (by simp [hg, hk]),
          @List.find?_cons_of_neg _ (fun r => r.1 == k) p a (by simp [hk])]
      exact ih

/-- Finding a key on the filter half of the spread: when the base object
lacks the key the filtered overriding object keeps its first entry for
the key, and when the base object has the key that entry is filtered
away. -/
lemma find?_spread_filterHalf {α : Type} (a : List (String × α)) (k : String) :
    ∀ (b : List (String × α)),
      (b.filter (fun q => !(a.any (fun p => p.1 == q.1)))).find?
          (fun q => q.1 == k)
        = if a.any (fun p => p.1 == k) then none
          else b.find? (fun q => q.1 == k) := by
  intro b
  induction b with
  | nil => cases h : a.any (fun p => p.1 == k) <;> simp [h]
  | cons r b ih =>
    by_cases hk : r.1 = k
    · cases ha : a.any (fun p => p.1 == k) with
      | true =>
        rw [@List.filter_cons_of_neg _ (fun q => !(a.any (fun p => p.1 == q.1))) r b
              (by simp [hk, ha]),
            ih]
        simp [ha]
      | false =>
        rw [@List.filter_cons_of_pos _ (fun q => !(a.any (fun p => p.1 == q.1))) r b
              (by simp [hk, ha]),
            @List.find?_cons_of_pos _ (fun q => q.1 == k) r _ (by simp [hk]),
            @List.find?_cons_of_pos _ (fun q => q.1 == k) r b (by simp [hk])]
        simp [ha]
    · have hbk : (r.1 == k) = false := by simp [hk]
      cases hkeep : (!(a.any (fun p => p.1 == r.1))) with
      | true =>
        rw [@List.filter_cons_of_pos _ (fun q => !(a.any (fun p => p.1 == q.1))) r b
              hkeep,
            @List.find?_cons_of_neg _ (fun q => q.1 == k) r _ (by simp [hbk]),
            ih,
            @List.find?_cons_of_neg _ (fun q => q.1 == k) r b (by simp [hbk])]
      | false =>
        rw [@List.filter_cons_of_neg _ (fun q => !(a.any (fun p => p.1 == q.1))) r b
              (by simp [hkeep]),
            ih,
            @List.find?_cons_of_neg _ (fun q => q.1 == k) r b (by simp [hbk])]

/-- A key is absent from an object exactly when no entry carries it. -/
lemma lookupQ_isSome_any {α : Type} (k : String) :
    ∀ (a : List (String × α)),
      (lookupQ a k).isSome = a.any (fun p => p.1 == k) := by
  intro a
  induction a with
  | nil => rfl
  | cons p a ih =>
    cases hk : (p.1 == k) with
    | true =>
      rw [lookupQ_cons_of_pos p a k hk]
      simp [List.any_cons, hk]
    | false =>
      rw [lookupQ_cons_of_neg p a k hk, ih]
      simp [List.any_cons, hk]

/-- Lookup law of the object spread: a key is looked up in the overriding
object first, then in the base object. -/
lemma lookup_spread {α : Type} (a b : List (String × α)) (k : String) :
    lookupQ (spreadObj a b) k =
      match lookupQ b k with
      | some w => some w
      | none => lookupQ a k := by
  have hg : ∀ p : String × α,
      (match b.find? (fun q : String × α => q.1 == p.1) with
        | some q => (p.1, q.2)
        | none => p).1 = p.1 := by
    intro p
    cases b.find? (fun q : String × α => q.1 == p.1) <;> rfl
  have hm := find?_map_keyPreserving
      (fun p => match b.find? (fun q : String × α => q.1 == p.1) with
        | some q => (p.1, q.2)
        | none => p) hg k a
  have hf := find?_spread_filterHalf a k b
  unfold spreadObj
  unfold lookupQ
  rw [List.find?_append, hm, hf]
  cases hfa : a.find? (fun p => p.1 == k) with
  | none =>
    have hany : a.any (fun p => p.1 == k) = false := by
      have h2 := lookupQ_isSome_any k a
      unfold lookupQ at h2
      rw [hfa] at h2
      simpa using h2.symm
    rw [hany]
    cases List.find? (fun p => p.1 == k) b <;> simp
  | some p =>
    have hpk : p.1 = k := by
      have h2 := List.find?_some hfa
      simpa using h2
    have hany : a.any (fun p => p.1 == k) = true := by
      have h2 := lookupQ_isSome_any k a
      unfold lookupQ at h2
      rw [hfa] at h2
      simpa using h2.symm
    rw [hany]
    simp only [Option.map_some', Option.or, if_true]
    rw [hpk]
    cases List.find? (fun q => q.1 == k) b <;> simp

/-- The additional info object after the qualification update. -/
lemma add_additional_info (lead : Lead) (qd : QualMap) (now : Nat) :
    (addLeadQualificationData lead qd now).additional_info
      = spreadObj lead.additional_info
          [("qualification_data",
            JVal.obj (spreadObj (getQualificationData lead.additional_info) qd))] :=
  rfl

/-- The qualification map stored after the update is the spread of the
new data over the stored one. -/
lemma storedQual_add (lead : Lead) (qd : QualMap) (now : Nat) :
    storedQualification (addLeadQualificationData lead qd now)
      = spreadObj (storedQualification lead) qd := by
  unfold storedQualification
  rw [add_additional_info]
  unfold getQualificationData
  rw [lookup_spread]
  simp [lookupQ]

/-- C8: the qualification merge is additive: every field present in the
stored qualification map stays present after a merge, a field named in
the new data ends with the new value, and merging an empty result leaves
every stored field unchanged. -/
theorem C8_qualification_merge_additive (lead : Lead) (qd : QualMap) (now : Nat)
    (k : String)
    (hk : (lookupQ (storedQualification lead) k).isSome = true) :
    ((lookupQ (storedQualification (addLeadQualificationData lead qd now)) k).isSome
        = true)
    ∧ (∀ k2 v2, lookupQ qd k2 = some v2 →
        lookupQ (storedQualification (addLeadQualificationData lead qd now)) k2
          = some v2)
    ∧ (∀ k2, lookupQ (storedQualification (addLeadQualificationData lead [] now)) k2
        = lookupQ (storedQualification lead) k2) := by
  refine ⟨?_, ?_, ?_⟩
  · rw [storedQual_add, lookup_spread]
    cases h2 : lookupQ qd k with
    | none => simpa using hk
    | some v => simp
  · intro k2 v2 h2
    rw [storedQual_add, lookup_spread, h2]
  · intro k2
    rw [storedQual_add, lookup_spread]
    simp [lookupQ]

/-- A demonstration lead with one stored qualification field and one
unrelated additional info key. -/
def demoLead : Lead :=
  { phone := some ("+15550100")
    email := none
    name := some ("Dana")
    status := "new"
    contact_channel := "whatsapp"
    business_id := "b1"
    additional_info :=
      [("source_note", JVal.prim ("web form")),
       ("qualification_data", JVal.obj [("budget", "1000")])]
    updated_at := 0 }

/-- C8 witness: the stored budget field survives a merge that adds a
timeline field. -/
theorem C8_witness :
    (lookupQ (storedQualification
        (addLeadQualificationData demoLead [("timeline", "weeks")] 5))
        ("budget")).isSome = true :=
  (C8_qualification_merge_additive demoLead [("timeline", "weeks")] 5 ("budget")
    (by rfl)).1

/-- C10: the qualification update touches only the qualification data
key of the additional info object and the update timestamp; every other
additional info key and every other lead column is unchanged. -/
theorem C10_merge_frame (lead : Lead) (qd : QualMap) (now : Nat) :
    (∀ k, ¬(k = "qualification_data") →
      lookupQ (addLeadQualificationData lead qd now).additional_info k
        = lookupQ lead.additional_info k)
    ∧ (addLeadQualificationData lead qd now).phone = lead.phone
    ∧ (addLeadQualificationData lead qd now).email = lead.email
    ∧ (addLeadQualificationData lead qd now).name = lead.name
    ∧ (addLeadQualificationData lead qd now).status = lead.status
    ∧ (addLeadQualificationData lead qd now).contact_channel = lead.contact_channel
    ∧ (addLeadQualificationData lead qd now).business_id = lead.business_id
    ∧ (addLeadQualificationData lead qd now).updated_at = now := by
  refine ⟨?_, rfl, rfl, rfl, rfl, rfl, rfl, rfl⟩
  intro k hk
  rw [add_additional_info, lookup_spread]
  have hnone : lookupQ
      [("qualification_data",
        JVal.obj (spreadObj (getQualificationData lead.additional_info) qd))] k
      = none := by
    simp [lookupQ, Ne.symm hk]
  rw [hnone]

/-- C10 witness: the unrelated additional info key of the demonstration
lead is unchanged by a merge. -/
theorem C10_witness :
    lookupQ (addLeadQualificationData demoLead [("timeline", "weeks")] 5).additional_info
        ("source_note")
      = lookupQ demoLead.additional_info ("source_note") :=
  (C10_merge_frame demoLead [("timeline", "weeks")] 5).1 ("source_note") (by decide)

/-! ## Helper lemmas for the extraction scan -/

/-- A message that is not from the lead is skipped by the scan step. -/
lemma msgStep_nonlead (field : List Char) (qd : QualMap) (m : MsgObj)
    (h : truthy (getProp m ("is_from_lead")) = false) :
    msgStep field qd m = qd := by
  unfold msgStep
  rw [h]
  rfl

/-- The scan of a message list coincides with the scan of its
lead-authored sublist. -/
lemma foldl_msgStep_filter (field : List Char) :
    ∀ (msgs : List MsgObj) (qd : QualMap),
      msgs.foldl (msgStep field) qd
        = (msgs.filter (fun m => truthy (getProp m ("is_from_lead")))).foldl
            (msgStep field) qd := by
  intro msgs
  induction msgs with
  | nil => intro qd; rfl
  | cons m msgs ih =>
    intro qd
    cases h : truthy (getProp m ("is_from_lead")) with
    | true =>
      rw [List.foldl_cons,
          @List.filter_cons_of_pos _
            (fun m => truthy (getProp m ("is_from_lead"))) m msgs h,
          List.foldl_cons]
      exact ih _
    | false =>
      rw [List.foldl_cons, msgStep_nonlead field qd m h,
          @List.filter_cons_of_neg _
            (fun m => truthy (getProp m ("is_from_lead"))) m msgs (by simp [h])]
      exact ih _

/-- Messages not from the lead never contribute to the extraction. -/
lemma extractFrom_filter (requiredInfo : String) (messages : List MsgObj) :
    extractFromMessages requiredInfo messages
      = extractFromMessages requiredInfo
          (messages.filter (fun m => truthy (getProp m ("is_from_lead")))) := by
  simp only [extractFromMessages]
  have h : ∀ (fs : List (List Char)) (qd : QualMap),
      fs.foldl (fun qd field => messages.foldl (msgStep field) qd) qd
        = fs.foldl (fun qd field =>
            (messages.filter (fun m => truthy (getProp m ("is_from_lead")))).foldl
              (msgStep field) qd) qd := by
    intro fs
    induction fs with
    | nil => intro qd; rfl
    | cons f fs ih =>
      intro qd
      rw [List.foldl_cons, List.foldl_cons, foldl_msgStep_filter]
      exact ih _
  exact h _ []

/-- A conversation of 101 messages: one hundred assistant rows followed
by one lead row stating a budget. -/
def conv101 : List MsgObj :=
  List.replicate 100 (mkMessage ("hello from the assistant") false) ++
  [mkMessage ("my budget is 5000") true]

/-- C9 counterexample: the extraction step reads only the first hundred
messages of the conversation (the default page of the message query), so
the lead message at position 101, which determines a budget, contributes
nothing, against the claim that every lead-authored message of the
conversation is scanned. -/
theorem C9_counterexample_page_limit :
    extractQualificationData ("budget") conv101 = []
    ∧ extractFromMessages ("budget") conv101 = [("budget", "5000")] := by
  constructor <;> rfl

/-- C9 amended: for every conversation, the extraction step computes
exactly the scan of the lead-authored messages among the first one
hundred messages of the conversation (the default page of the message
query): messages not from the lead never contribute, every lead-authored
message of the first page is scanned, and for conversations of at most
one hundred messages that is every lead-authored message. -/
theorem C9_scan_scope (requiredInfo : String) (messages : List MsgObj) :
    extractQualificationData requiredInfo messages
      = extractFromMessages requiredInfo
          ((messages.take 100).filter
            (fun m => truthy (getProp m ("is_from_lead")))) := by
  unfold extractQualificationData getMessagesByConversationId
  rw [List.drop_zero]
  exact extractFrom_filter requiredInfo (messages.take 100)

end Leadwell
